import Mathlib

set_option maxRecDepth 100000

/-!
Verification of the shade content-addressed storage layer: the replicating
cache coordinator (modelled from the specification, since only its tests ship
in the sources) and the Google Drive backend (`drive/google/google.go`).

Digests and payloads are byte lists (`List Nat`, each element < 256 where the
source manipulates `[]byte`).
-/

namespace Shade

/-- A digest: raw bytes of a cryptographic hash (Go `[]byte`). -/
abbrev Digest := List Nat

/-- A byte payload (Go `[]byte`). -/
abbrev Content := List Nat

/-! ## SHA-256

Executable SHA-256 over byte lists, used to realise the spec scenario
`Put(sha256("x"), "x")` and the hash-verification claims. Words are `Nat`
reduced mod `2 ^ 32` wherever 32-bit overflow matters. -/

/-- Right-rotation of a 32-bit word by `n` bits. -/
def rotr32 (n x : Nat) : Nat :=
  (x / 2 ^ n + x % 2 ^ n * 2 ^ (32 - n)) % 2 ^ 32

/-- The small sigma-0 schedule function of SHA-256. -/
def smallS0 (x : Nat) : Nat := rotr32 7 x ^^^ rotr32 18 x ^^^ x / 2 ^ 3

/-- The small sigma-1 schedule function of SHA-256. -/
def smallS1 (x : Nat) : Nat := rotr32 17 x ^^^ rotr32 19 x ^^^ x / 2 ^ 10

/-- The big sigma-0 round function of SHA-256. -/
def bigS0 (x : Nat) : Nat := rotr32 2 x ^^^ rotr32 13 x ^^^ rotr32 22 x

/-- The big sigma-1 round function of SHA-256. -/
def bigS1 (x : Nat) : Nat := rotr32 6 x ^^^ rotr32 11 x ^^^ rotr32 25 x

/-- The choice function of SHA-256; the complement of `x` is taken within
32 bits. -/
def chf (x y z : Nat) : Nat := Nat.xor (Nat.land x y) (Nat.land (Nat.xor x 4294967295) z)

/-- The majority function of SHA-256. -/
def majf (x y z : Nat) : Nat :=
  Nat.xor (Nat.xor (Nat.land x y) (Nat.land x z)) (Nat.land y z)

/-- The 64 round constants of SHA-256 (FIPS 180-4 §4.2.2), written in
decimal. -/
def shaK : List Nat :=
  [1116352408, 1899447441, 3049323471, 3921009573, 961987163,
   1508970993, 2453635748, 2870763221, 3624381080, 310598401,
   607225278, 1426881987, 1925078388, 2162078206, 2614888103,
   3248222580, 3835390401, 4022224774, 264347078, 604807628,
   770255983, 1249150122, 1555081692, 1996064986, 2554220882,
   2821834349, 2952996808, 3210313671, 3336571891, 3584528711,
   113926993, 338241895, 666307205, 773529912, 1294757372,
   1396182291, 1695183700, 1986661051, 2177026350, 2456956037,
   2730485921, 2820302411, 3259730800, 3345764771, 3516065817,
   3600352804, 4094571909, 275423344, 430227734, 506948616,
   659060556, 883997877, 958139571, 1322822218, 1537002063,
   1747873779, 1955562222, 2024104815, 2227730452, 2361852424,
   2428436474, 2756734187, 3204031479, 3329325298]

/-- The SHA-256 working state: eight 32-bit words. -/
structure Sha8 where
  a : Nat
  b : Nat
  c : Nat
  d : Nat
  e : Nat
  f : Nat
  g : Nat
  h : Nat
deriving Repr, DecidableEq

/-- The SHA-256 initial hash value (FIPS 180-4 §5.3.3), in decimal. -/
def shaH0 : Sha8 :=
  ⟨1779033703, 3144134277, 1013904242, 2773480762,
   1359893119, 2600822924, 528734635, 1541459225⟩

/-- One SHA-256 compression round; `kw` is the round constant plus the
schedule word. -/
def shaRound (x : Sha8) (kw : Nat) : Sha8 :=
  let t1 := (x.h + bigS1 x.e + chf x.e x.f x.g + kw) % 2 ^ 32
  let t2 := (bigS0 x.a + majf x.a x.b x.c) % 2 ^ 32
  ⟨(t1 + t2) % 2 ^ 32, x.a, x.b, x.c, (x.d + t1) % 2 ^ 32, x.e, x.f, x.g⟩

/-- Extend 16 message words to the 64-entry SHA-256 message schedule. -/
def shaSchedule (ws : Array Nat) : Array Nat :=
  (List.range 48).foldl
    (fun w i =>
      let t := i + 16
      w.push ((smallS1 w[t - 2]! + w[t - 7]!
        + smallS0 w[t - 15]! + w[t - 16]!) % 2 ^ 32))
    ws

/-- Process one 512-bit block (16 words) into the running hash value. -/
def shaBlock (h0 : Sha8) (block : List Nat) : Sha8 :=
  let w := shaSchedule block.toArray
  let kws := (List.range 64).map fun t => (shaK[t]! + w[t]!) % 2 ^ 32
  let x := kws.foldl shaRound h0
  ⟨(h0.a + x.a) % 2 ^ 32, (h0.b + x.b) % 2 ^ 32, (h0.c + x.c) % 2 ^ 32,
   (h0.d + x.d) % 2 ^ 32, (h0.e + x.e) % 2 ^ 32, (h0.f + x.f) % 2 ^ 32,
   (h0.g + x.g) % 2 ^ 32, (h0.h + x.h) % 2 ^ 32⟩

/-- Big-endian packing of bytes into 32-bit words, four at a time. -/
def bytesToWords : List Nat → List Nat
  | b0 :: b1 :: b2 :: b3 :: rest =>
      (b0 * 2 ^ 24 + b1 * 2 ^ 16 + b2 * 2 ^ 8 + b3) :: bytesToWords rest
  | _ => []

/-- Big-endian unpacking of a 32-bit word into four bytes. -/
def wordToBytes (x : Nat) : List Nat :=
  [x / 2 ^ 24 % 256, x / 2 ^ 16 % 256, x / 2 ^ 8 % 256, x % 256]

/-- SHA-256 padding: append `0x80`, zero bytes to 56 mod 64, then the 64-bit
big-endian bit length. -/
def shaPad (msg : List Nat) : List Nat :=
  let len := msg.length
  let bitLen := 8 * len
  let zeros := (64 - (len + 9) % 64) % 64
  msg ++ 0x80 :: List.replicate zeros 0 ++
    [bitLen / 2 ^ 56 % 256, bitLen / 2 ^ 48 % 256, bitLen / 2 ^ 40 % 256,
     bitLen / 2 ^ 32 % 256, bitLen / 2 ^ 24 % 256, bitLen / 2 ^ 16 % 256,
     bitLen / 2 ^ 8 % 256, bitLen % 256]

/-- SHA-256 of a byte list, as its 32 digest bytes. -/
def sha256 (msg : List Nat) : List Nat :=
  let words := bytesToWords (shaPad msg)
  let nblocks := words.length / 16
  let final := (List.range nblocks).foldl
    (fun h i => shaBlock h ((words.drop (16 * i)).take 16)) shaH0
  wordToBytes final.a ++ wordToBytes final.b ++ wordToBytes final.c ++
    wordToBytes final.d ++ wordToBytes final.e ++ wordToBytes final.f ++
    wordToBytes final.g ++ wordToBytes final.h

/-- The bytes of an ASCII string (Go `[]byte(s)`). -/
def strBytes (s : String) : List Nat := s.data.map Char.toNat

/-! ## Errors and digest-keyed stores -/

/-- The error taxonomy of the spec (§7): not-found, transient transport,
durability failure, configuration failure, ambiguous result. -/
inductive Err where
  | notFound
  | transport
  | durability
  | config
  | ambiguous
deriving Repr, DecidableEq

/-- Lookup in a digest-keyed association store (a Go `map` keyed by
`string(digest)`). -/
def astoreLookup {β : Type} : List (Digest × β) → Digest → Option β
  | [], _ => none
  | (k, v) :: rest, d => if k = d then some v else astoreLookup rest d

/-- Insertion into a digest-keyed association store, overwriting the value
when the key is already present (Go map assignment). -/
def astoreInsert {β : Type} : List (Digest × β) → Digest → β → List (Digest × β)
  | [], d, x => [(d, x)]
  | (k, v) :: rest, d, x =>
      if k = d then (d, x) :: rest else (k, v) :: astoreInsert rest d x

/-- The keys of a digest-keyed association store. -/
def astoreKeys {β : Type} (s : List (Digest × β)) : List Digest :=
  s.map Prod.fst

/-! ## Cache coordinator, modelled from the spec

`drive/cache/cache.go` is not among the sources (only its test file is), so
the coordinator and its in-memory/failing children are modelled from the
specification, §3 "Coordinator child set", §4.3 and §8. -/

/-- Modelled from the spec: a coordinator child — a backend `Client` tagged
with a `Write` flag, fixed `Persistent()`/`Local()`-style capabilities, and
its stored file/chunk records. `failing` models a child whose calls all
return a transient transport error (the `fail` test provider). -/
structure Child where
  write : Bool
  persistent : Bool
  failing : Bool
  files : List (Digest × Content)
  chunks : List (Digest × Content)
deriving Repr, DecidableEq

/-- Modelled from the spec: an in-memory test double — writable, never
failing, and non-persistent ("pure in-memory test doubles: false"). -/
def memChild : Child := ⟨true, false, false, [], []⟩

/-- Modelled from the spec: the `fail` test provider — writable but failing
every call, non-persistent. -/
def failChild : Child := ⟨true, false, true, [], []⟩

/-- Modelled from the spec: the `fail` test provider configured to report
itself persistent (the `TestOnlyPersistentSatisfies` configuration). -/
def failPersistentChild : Child := ⟨true, true, true, [], []⟩

/-- An in-memory child already holding the given file and chunk stores. -/
def memChildWith (files chunks : List (Digest × Content)) : Child :=
  ⟨true, false, false, files, chunks⟩

/-- Modelled from the spec: a child `PutFile` — stores the record under the
digest, or fails wholesale on a failing child. -/
def childPutFile (c : Child) (d : Digest) (x : Content) : Except Err Child :=
  if c.failing then .error .transport
  else .ok { c with files := astoreInsert c.files d x }

/-- Modelled from the spec: a child `PutChunk`. -/
def childPutChunk (c : Child) (d : Digest) (x : Content) : Except Err Child :=
  if c.failing then .error .transport
  else .ok { c with chunks := astoreInsert c.chunks d x }

/-- Modelled from the spec: a child `GetFile` — not-found on an absent
digest, transport error on a failing child. -/
def childGetFile (c : Child) (d : Digest) : Except Err Content :=
  if c.failing then .error .transport
  else match astoreLookup c.files d with
    | some x => .ok x
    | none => .error .notFound

/-- Modelled from the spec: a child `GetChunk`. -/
def childGetChunk (c : Child) (d : Digest) : Except Err Content :=
  if c.failing then .error .transport
  else match astoreLookup c.chunks d with
    | some x => .ok x
    | none => .error .notFound

/-- The file digests a child holds. -/
def childFileDigests (c : Child) : List Digest := astoreKeys c.files

/-- The chunk digests a child holds. -/
def childChunkDigests (c : Child) : List Digest := astoreKeys c.chunks

/-- Modelled from the spec: a child `ListFiles`. -/
def childListFiles (c : Child) : Except Err (List Digest) :=
  if c.failing then .error .transport else .ok (childFileDigests c)

/-- Modelled from the spec: a child `ListChunks`. -/
def childListChunks (c : Child) : Except Err (List Digest) :=
  if c.failing then .error .transport else .ok (childChunkDigests c)

/-- Modelled from the spec: the coordinator (`cache.Drive`), owning its
ordered child list. -/
structure CacheDrive where
  clients : List Child
deriving Repr, DecidableEq

/-- Modelled from the spec: coordinator construction — "Fails with a
configuration error if `children` is empty." -/
def newClient (children : List Child) : Except Err CacheDrive :=
  if children.isEmpty then .error .config else .ok ⟨children⟩

/-- Modelled from the spec, §4.3 fan-out write: issue the Put to every child
with `Write == true`, collect each child's outcome into its per-child slot
(new state, success flag); a child that was not attempted or failed keeps
its old state and counts as no success. -/
def coordPutSlots (put1 : Child → Except Err Child) (cs : List Child) :
    List (Child × Bool) :=
  cs.map fun c =>
    if c.write then
      match put1 c with
      | .ok c2 => (c2, true)
      | .error _ => (c, false)
    else (c, false)

/-- Modelled from the spec, §4.3 durability classification: the fanned-out
Put succeeds iff among children that returned success at least one is
persistent; otherwise it is a durability error. The per-child states are
kept either way (a non-persistent child may hold the bytes even when the
overall Put fails). -/
def coordPutWith (put1 : Child → Except Err Child) (cs : List Child) :
    List Child × Except Err Unit :=
  let slots := coordPutSlots put1 cs
  (slots.map Prod.fst,
   if slots.any fun s => s.2 && s.1.persistent then .ok () else .error .durability)

/-- Modelled from the spec: coordinator `PutFile` — fan-out write with the
durability invariant. -/
def coordPutFile (cs : List Child) (d : Digest) (x : Content) :
    List Child × Except Err Unit :=
  coordPutWith (fun c => childPutFile c d x) cs

/-- Modelled from the spec: coordinator `PutChunk`. -/
def coordPutChunk (cs : List Child) (d : Digest) (x : Content) :
    List Child × Except Err Unit :=
  coordPutWith (fun c => childPutChunk c d x) cs

/-- Modelled from the spec, §4.3 read: query children in construction order,
return the first successful payload, continue past child errors, and return
not-found only once every child has been tried. -/
def coordGetWith (get1 : Child → Except Err Content) : List Child → Except Err Content
  | [] => .error .notFound
  | c :: rest =>
      match get1 c with
      | .ok p => .ok p
      | .error _ => coordGetWith get1 rest

/-- Modelled from the spec: coordinator `GetFile`. -/
def coordGetFile (cs : List Child) (d : Digest) : Except Err Content :=
  coordGetWith (fun c => childGetFile c d) cs

/-- Modelled from the spec: coordinator `GetChunk`. -/
def coordGetChunk (cs : List Child) (d : Digest) : Except Err Content :=
  coordGetWith (fun c => childGetChunk c d) cs

/-- Modelled from the spec, §4.3 list: query every child, union the returned
digest sets using the digest bytes as the uniqueness key (duplicates across
children collapse to one entry). -/
def coordListWith (list1 : Child → Except Err (List Digest)) (cs : List Child) :
    List Digest :=
  (cs.flatMap fun c =>
    match list1 c with
    | .ok ds => ds
    | .error _ => []).dedup

/-- Modelled from the spec: coordinator `ListFiles`. -/
def coordListFiles (cs : List Child) : List Digest :=
  coordListWith childListFiles cs

/-- Modelled from the spec: coordinator `ListChunks`. -/
def coordListChunks (cs : List Child) : List Digest :=
  coordListWith childListChunks cs

/-! ## Hex encoding (Go `encoding/hex`) -/

/-- The lowercase hex digit for a nibble (`0`–`9`, `a`–`f`). -/
def hexDigitChar (n : Nat) : Char :=
  if n < 10 then Char.ofNat (48 + n) else Char.ofNat (87 + n)

/-- Go `hex.EncodeToString`: each byte becomes two lowercase hex characters,
high nibble first. -/
def hexEncode (bs : List Nat) : List Char :=
  bs.flatMap fun b => [hexDigitChar (b / 16 % 16), hexDigitChar (b % 16)]

/-- The value of one hex character, accepting `0-9`, `a-f` and `A-F`. -/
def hexDigitVal (c : Char) : Option Nat :=
  if 48 ≤ c.toNat ∧ c.toNat ≤ 57 then some (c.toNat - 48)
  else if 97 ≤ c.toNat ∧ c.toNat ≤ 102 then some (c.toNat - 87)
  else if 65 ≤ c.toNat ∧ c.toNat ≤ 70 then some (c.toNat - 55)
  else none

/-- Go `hex.DecodeString`: pairs of hex characters back to bytes; fails on an
odd length or a non-hex character. -/
def hexDecode : List Char → Option (List Nat)
  | [] => some []
  | [_] => none
  | c1 :: c2 :: rest =>
      match hexDigitVal c1, hexDigitVal c2, hexDecode rest with
      | some hi, some lo, some bs => some ((16 * hi + lo) :: bs)
      | _, _, _ => none

/-! ## The Google Drive backend (`drive/google/google.go`)

The external Google Drive API service is modelled as explicit state: a list
of remote files (each with server-assigned ID, name, `shadeType` app
property, parent container and content) threaded through each call. The
model follows the successful-transport executions of the source; a transport
failure of the external API simply maps to the corresponding error return
and changes nothing, so it is not replayed here. -/

namespace google

/-- The provider configuration fields `google.go` reads: `FileParentID` and
`ChunkParentID` (empty means the `appDataFolder` space is used). -/
structure Config where
  fileParentID : String
  chunkParentID : String
deriving Repr, DecidableEq

/-- A remote file held by the Google Drive service: its server-assigned ID,
name, `shadeType` app property, parent container, and media content. -/
structure RFile where
  id : Nat
  name : List Char
  shadeType : String
  parent : String
  content : Content
deriving Repr, DecidableEq

/-- The remote Google Drive service state: stored files and the next fresh
server-assigned file ID. -/
structure Remote where
  files : List RFile
  nextId : Nat
deriving Repr, DecidableEq

/-- `google.Drive`: the service configuration plus the mutex-protected
`files` map from digest bytes (`string(b)`) to remote file ID. -/
structure Drive where
  config : Config
  files : List (Digest × Nat)
deriving Repr, DecidableEq

/-- The Drive API `Files.Create(f).Media(br)` call: appends a new remote
file under a fresh ID. The service never deduplicates by name. -/
def createFile (r : Remote) (name : List Char) (shadeType parent : String)
    (content : Content) : Remote :=
  ⟨r.files ++ [⟨r.nextId, name, shadeType, parent, content⟩], r.nextId + 1⟩

/-- The Drive API `Files.Get(fileID).Download()` call followed by reading
the body: the stored content of the file with that ID. -/
def download (r : Remote) (fid : Nat) : Except Err Content :=
  match r.files.find? (fun f => f.id == fid) with
  | some f => .ok f.content
  | none => .error .transport

/-- The parent container file operations use: `FileParentID` when
configured (space `drive`), else the `appDataFolder` space. -/
def fileParentOf (cfg : Config) : String :=
  if cfg.fileParentID ≠ "" then cfg.fileParentID else "appDataFolder"

/-- The parent container chunk operations use: `ChunkParentID` when
configured (space `drive`), else the `appDataFolder` space. -/
def chunkParentOf (cfg : Config) : String :=
  if cfg.chunkParentID ≠ "" then cfg.chunkParentID else "appDataFolder"

/-- The `ListFiles` query: `appProperties has \x7b key='shadeType' and
value='file' \x7d`, restricted to the configured file parent. -/
def fileQueryMatches (cfg : Config) (f : RFile) : Bool :=
  f.shadeType == "file" && f.parent == fileParentOf cfg

/-- The `GetChunk` fallback query: `name = hex(digest)` only — no
`shadeType` filter — restricted to the configured chunk parent. -/
def chunkQueryMatches (cfg : Config) (d : Digest) (f : RFile) : Bool :=
  f.name == hexEncode d && f.parent == chunkParentOf cfg

/-- `google.Drive.ListFiles`: query all `shadeType=file` remote files, cache
`decoded-name ↦ file ID` for every name that hex-decodes (others are
skipped), then return the keys of the cache. -/
def ListFiles (s : Drive) (r : Remote) : Drive × List Digest :=
  let matched := r.files.filter (fileQueryMatches s.config)
  let cache := matched.foldl
    (fun m f =>
      match hexDecode f.name with
      | some b => astoreInsert m b f.id
      | none => m)
    s.files
  ({ s with files := cache }, astoreKeys cache)

/-- `google.Drive.GetChunk`: the hint parameter (`_ *shade.File` in the
source) is ignored. Use the cached file ID for the digest when present;
otherwise query the service by name, demanding exactly one match (anything
else is the `non-unique chunk result` error); then download that file ID.
The downloaded bytes are returned as they are. -/
def GetChunk (s : Drive) (r : Remote) (d : Digest) (_hint : Option Unit) :
    Except Err Content :=
  match astoreLookup s.files d with
  | some fid => download r fid
  | none =>
      match r.files.filter (chunkQueryMatches s.config d) with
      | [f] => download r f.id
      | _ => .error .ambiguous

/-- `google.Drive.GetFile`: delegates to `GetChunk` with a nil hint. -/
def GetFile (s : Drive) (r : Remote) (d : Digest) : Except Err Content :=
  GetChunk s r d none

/-- `google.Drive.PutFile`: unconditionally create a remote file named
`hex(digest)` tagged `shadeType=file`, under `FileParentID` when configured,
else `appDataFolder`. The client cache is untouched. -/
def PutFile (s : Drive) (r : Remote) (d : Digest) (content : Content) :
    Drive × Remote :=
  (s, createFile r (hexEncode d) "file" (fileParentOf s.config) content)

/-- `google.Drive.PutChunk`: when the digest is in the cached `files` map,
return success without any service call ("we know this chunk already
exists"); otherwise create a remote file named `hex(digest)` tagged
`shadeType=chunk`. The client cache is untouched either way. -/
def PutChunk (s : Drive) (r : Remote) (d : Digest) (content : Content) :
    Drive × Remote :=
  match astoreLookup s.files d with
  | some _ => (s, r)
  | none =>
      (s, createFile r (hexEncode d) "chunk" (chunkParentOf s.config) content)

/-- `google.Drive.Local`: access is not local. -/
def Local (_ : Drive) : Bool := false

/-- `google.Drive.Persistent`: storage survives restarts. -/
def Persistent (_ : Drive) : Bool := true

/-- A freshly constructed client over the default configuration (empty
parent IDs), as `NewClient` builds it: an empty digest cache. -/
def emptyDrive : Drive := ⟨⟨"", ""⟩, []⟩

/-- An empty remote service state. -/
def emptyRemote : Remote := ⟨[], 0⟩

end google

/-! ## Concrete states for the Google backend scenarios -/

/-- The digest of the payload `"x"`. -/
def digestX : Digest := sha256 (strBytes "x")

/-- The remote state after `PutFile(sha256("x"), "x")` against a fresh
google client and an empty service. -/
def googleRemote1 : google.Remote :=
  (google.PutFile google.emptyDrive google.emptyRemote digestX (strBytes "x")).2

/-- The remote state after a second, identical `PutFile(sha256("x"), "x")`. -/
def googleRemote2 : google.Remote :=
  (google.PutFile google.emptyDrive googleRemote1 digestX (strBytes "x")).2

/-- A remote service holding, under the name `hex(sha256("x"))`, the payload
`"y"` — whose hash is not the requested digest. -/
def mismatchedRemote : google.Remote :=
  ⟨[⟨0, hexEncode digestX, "chunk", "appDataFolder", strBytes "y"⟩], 1⟩

/-- A google client whose cache maps digest `[3]` to remote file ID 0. -/
def cachedDrive : google.Drive := ⟨⟨"", ""⟩, [([3], 0)]⟩

/-- A remote service whose file ID 0 is named `hex([3])` with content
`[9, 9]`. -/
def storedRemote : google.Remote :=
  ⟨[⟨0, hexEncode [3], "chunk", "appDataFolder", [9, 9]⟩], 1⟩

/-! ## Helper lemmas -/

/-- Key membership after an association-store insert: the new key plus the
old keys. -/
theorem astoreKeys_insert_mem {β : Type} (s : List (Digest × β)) (d : Digest)
    (x : β) (e : Digest) :
    e ∈ astoreKeys (astoreInsert s d x) ↔ e = d ∨ e ∈ astoreKeys s := by
  induction s with
  | nil => simp [astoreInsert, astoreKeys]
  | cons kv rest ih =>
    obtain ⟨k, v⟩ := kv
    by_cases hk : k = d
    · subst hk
      simp [astoreInsert, astoreKeys]
    · simp only [astoreInsert, if_neg hk, astoreKeys, List.map_cons, List.mem_cons]
      rw [show (astoreKeys (astoreInsert rest d x) : List Digest)
            = (astoreInsert rest d x).map Prod.fst from rfl] at ih
      rw [ih]
      tauto

/-- A child put succeeds exactly on non-failing children, and it preserves
the capability bits. -/
theorem childPutFile_ok_iff (c : Child) (d : Digest) (x : Content) :
    (∃ c2, childPutFile c d x = .ok c2) ↔ c.failing = false := by
  unfold childPutFile
  by_cases hf : c.failing <;> simp [hf]

/-- A child chunk put succeeds exactly on non-failing children. -/
theorem childPutChunk_ok_iff (c : Child) (d : Digest) (x : Content) :
    (∃ c2, childPutChunk c d x = .ok c2) ↔ c.failing = false := by
  unfold childPutChunk
  by_cases hf : c.failing <;> simp [hf]

/-- The fanned-out put verdict is success exactly when some `Write`-eligible
child both succeeded and is persistent, for any per-child put that preserves
the persistence bit. -/
theorem coordPutWith_ok_iff (put1 : Child → Except Err Child)
    (hpers : ∀ c c2, put1 c = .ok c2 → c2.persistent = c.persistent)
    (cs : List Child) :
    (coordPutWith put1 cs).2 = .ok () ↔
      ∃ c ∈ cs, c.write = true ∧ c.persistent = true ∧
        ∃ c2, put1 c = .ok c2 := by
  have hpoint : ∀ c : Child,
      ((if c.write then
          match put1 c with
          | .ok c2 => (c2, true)
          | .error _ => (c, false)
        else (c, false)).2
        && (if c.write then
          match put1 c with
          | .ok c2 => (c2, true)
          | .error _ => (c, false)
        else (c, false)).1.persistent) = true ↔
        (c.write = true ∧ c.persistent = true ∧ ∃ c2, put1 c = .ok c2) := by
    intro c
    by_cases hw : c.write
    · cases hput : put1 c with
      | ok c2 => simp [hw, hput, hpers c c2 hput]
      | error e => simp [hw, hput]
    · simp [hw]
  unfold coordPutWith coordPutSlots
  by_cases hany : (cs.map fun c =>
      if c.write then
        match put1 c with
        | .ok c2 => (c2, true)
        | .error _ => (c, false)
      else (c, false)).any fun s => s.2 && s.1.persistent
  · simp only [hany, if_true]
    rw [List.any_eq_true] at hany
    obtain ⟨slot, hslot, hp⟩ := hany
    rw [List.mem_map] at hslot
    obtain ⟨c, hc, hfc⟩ := hslot
    subst hfc
    simp only [true_iff]
    exact ⟨c, hc, (hpoint c).mp hp⟩
  · simp only [hany, if_false]
    constructor
    · intro h
      exact absurd h (by simp)
    · rintro ⟨c, hc, hprop⟩
      exact absurd (List.any_eq_true.mpr
        ⟨_, List.mem_map.mpr ⟨c, hc, rfl⟩, (hpoint c).mpr hprop⟩) hany

/-- The fanned-out put verdict is success or the durability error. -/
theorem coordPutWith_verdict (put1 : Child → Except Err Child) (cs : List Child) :
    (coordPutWith put1 cs).2 = .ok () ∨
      (coordPutWith put1 cs).2 = .error .durability := by
  unfold coordPutWith
  by_cases hany : (coordPutSlots put1 cs).any fun s => s.2 && s.1.persistent <;>
    simp [hany]

/-- The fanned-out read returns a payload exactly when it comes from the
first child, in construction order, whose read succeeds. -/
theorem coordGetWith_ok_iff (get1 : Child → Except Err Content)
    (cs : List Child) (p : Content) :
    coordGetWith get1 cs = .ok p ↔
      ∃ pre c post, cs = pre ++ c :: post ∧ get1 c = .ok p ∧
        ∀ c2 ∈ pre, ∃ e, get1 c2 = .error e := by
  induction cs with
  | nil =>
    simp only [coordGetWith, false_iff]
    · constructor
      · intro h
        exact absurd h (by simp)
      · rintro ⟨pre, c, post, heq, -, -⟩
        exact absurd heq.symm (by simp)
  | cons a rest ih =>
    unfold coordGetWith
    cases hga : get1 a with
    | ok q =>
      simp only []
      constructor
      · intro h
        obtain rfl : q = p := by injection h
        exact ⟨[], a, rest, rfl, hga, by simp⟩
      · rintro ⟨pre, c, post, heq, hc, hpre⟩
        cases pre with
        | nil =>
          obtain ⟨rfl, -⟩ : a = c ∧ rest = post := by
            constructor <;> [injection heq; injection heq]
          rw [hga] at hc
          injection hc with hq
          rw [hq]
        | cons p0 pre2 =>
          obtain ⟨rfl, -⟩ : a = p0 ∧ rest = pre2 ++ c :: post := by
            constructor <;> [injection heq; injection heq]
          obtain ⟨e, he⟩ := hpre a (by simp)
          rw [hga] at he
          exact absurd he (by simp)
    | error e =>
      simp only []
      rw [ih]
      constructor
      · rintro ⟨pre, c, post, heq, hc, hpre⟩
        refine ⟨a :: pre, c, post, by rw [heq]; rfl, hc, ?_⟩
        intro c2 hc2
        rcases List.mem_cons.mp hc2 with h2 | h2
        · exact ⟨e, h2 ▸ hga⟩
        · exact hpre c2 h2
      · rintro ⟨pre, c, post, heq, hc, hpre⟩
        cases pre with
        | nil =>
          obtain ⟨rfl, -⟩ : a = c ∧ rest = post := by
            constructor <;> [injection heq; injection heq]
          rw [hga] at hc
          exact absurd hc (by simp)
        | cons p0 pre2 =>
          obtain ⟨rfl, hrest⟩ : a = p0 ∧ rest = pre2 ++ c :: post := by
            constructor <;> [injection heq; injection heq]
          exact ⟨pre2, c, post, hrest, hc, fun c2 h2 => hpre c2 (by simp [h2])⟩

/-- When every child read fails, the fanned-out read is a terminal
not-found. -/
theorem coordGetWith_exhausted (get1 : Child → Except Err Content)
    (cs : List Child) (h : ∀ c ∈ cs, ∃ e, get1 c = .error e) :
    coordGetWith get1 cs = .error .notFound := by
  induction cs with
  | nil => rfl
  | cons a rest ih =>
    obtain ⟨e, he⟩ := h a (by simp)
    unfold coordGetWith
    rw [he]
    exact ih fun c hc => h c (by simp [hc])

/-- Key membership in the cache built by `ListFiles`: the old keys plus
every decodable name among the files it walked. -/
theorem listFiles_cache_foldl_mem (fs : List google.RFile)
    (m : List (Digest × Nat)) (k : Digest) :
    k ∈ astoreKeys (fs.foldl
      (fun m2 f =>
        match hexDecode f.name with
        | some b => astoreInsert m2 b f.id
        | none => m2)
      m) ↔
      k ∈ astoreKeys m ∨ ∃ f ∈ fs, hexDecode f.name = some k := by
  induction fs generalizing m with
  | nil => simp
  | cons f rest ih =>
    simp only [List.foldl_cons]
    rw [ih]
    cases hf : hexDecode f.name with
    | none => simp [hf]
    | some b =>
      simp only [hf, astoreKeys_insert_mem, List.exists_mem_cons_iff,
        Option.some.injEq, eq_comm]
      tauto

/-! ## Claim theorems -/

/-- C8: constructing the coordinator with an empty children list fails with
a configuration error, so no client value is returned for that call. -/
theorem newClient_empty_children_config_error :
    newClient [] = .error .config := rfl

/-- C2: on a coordinator with exactly two in-memory children (both
`Write=true`, both non-persistent), every `PutFile` and `PutChunk` — in
particular `Put(sha256("x"), "x")` — returns the durability error, because
no persistent child exists. -/
theorem two_memory_children_put_always_errors :
    (∀ d x, (coordPutFile [memChild, memChild] d x).2 = .error .durability ∧
            (coordPutChunk [memChild, memChild] d x).2 = .error .durability) ∧
    (coordPutFile [memChild, memChild]
        (sha256 (strBytes "x")) (strBytes "x")).2 = .error .durability := by
  refine ⟨fun d x => ⟨rfl, rfl⟩, rfl⟩

/-- C1: a coordinator `PutFile`/`PutChunk` succeeds iff at least one child
with `Write=true` and `Persistent()==true` returned success; otherwise it
returns the durability error — so all-persistent-failures yield an error
even when non-persistent children accepted the write, and one persistent
success suffices even when every other child fails. -/
theorem put_ok_iff_persistent_write_child_ok (cs : List Child) (d : Digest)
    (x : Content) :
    ((coordPutFile cs d x).2 = .ok () ↔
      ∃ c ∈ cs, c.write = true ∧ c.persistent = true ∧
        ∃ c2, childPutFile c d x = .ok c2) ∧
    ((coordPutFile cs d x).2 = .ok () ∨
      (coordPutFile cs d x).2 = .error .durability) ∧
    ((coordPutChunk cs d x).2 = .ok () ↔
      ∃ c ∈ cs, c.write = true ∧ c.persistent = true ∧
        ∃ c2, childPutChunk c d x = .ok c2) ∧
    ((coordPutChunk cs d x).2 = .ok () ∨
      (coordPutChunk cs d x).2 = .error .durability) := by
  have hpf : ∀ c c2 : Child, childPutFile c d x = .ok c2 →
      c2.persistent = c.persistent := by
    intro c c2 h
    by_cases hf : c.failing
    · simp [childPutFile, hf] at h
    · simp [childPutFile, hf] at h
      subst h
      rfl
  have hpc : ∀ c c2 : Child, childPutChunk c d x = .ok c2 →
      c2.persistent = c.persistent := by
    intro c c2 h
    by_cases hf : c.failing
    · simp [childPutChunk, hf] at h
    · simp [childPutChunk, hf] at h
      subst h
      rfl
  unfold coordPutFile coordPutChunk
  exact ⟨coordPutWith_ok_iff _ hpf cs, coordPutWith_verdict _ cs,
    coordPutWith_ok_iff _ hpc cs, coordPutWith_verdict _ cs⟩

/-- C4: a coordinator `GetFile`/`GetChunk` queries children in construction
order, returns the first successful payload (so earlier transient child
errors do not fail the read), and is the terminal not-found only once every
child has been tried without success. -/
theorem get_first_successful_child_wins (cs : List Child) (d : Digest)
    (p : Content) :
    (coordGetFile cs d = .ok p ↔
      ∃ pre c post, cs = pre ++ c :: post ∧ childGetFile c d = .ok p ∧
        ∀ c2 ∈ pre, ∃ e, childGetFile c2 d = .error e) ∧
    ((∀ c ∈ cs, ∃ e, childGetFile c d = .error e) →
      coordGetFile cs d = .error .notFound) ∧
    (coordGetChunk cs d = .ok p ↔
      ∃ pre c post, cs = pre ++ c :: post ∧ childGetChunk c d = .ok p ∧
        ∀ c2 ∈ pre, ∃ e, childGetChunk c2 d = .error e) ∧
    ((∀ c ∈ cs, ∃ e, childGetChunk c d = .error e) →
      coordGetChunk cs d = .error .notFound) := by
  unfold coordGetFile coordGetChunk
  exact ⟨coordGetWith_ok_iff _ cs p, fun h => coordGetWith_exhausted _ cs h,
    coordGetWith_ok_iff _ cs p, fun h => coordGetWith_exhausted _ cs h⟩

/-- C4 witness: with a failing first child, the payload still comes from the
second child; with a single empty child, the read is the terminal
not-found. -/
theorem get_first_successful_child_wins_witness :
    coordGetFile [failChild, memChildWith [([0], [7])] []] [0] = .ok [7] ∧
    coordGetFile [memChild] [0] = .error .notFound := by
  constructor
  · exact (get_first_successful_child_wins
        [failChild, memChildWith [([0], [7])] []] [0] [7]).1.mpr
      ⟨[failChild], memChildWith [([0], [7])] [], [], rfl, rfl, by
        intro c2 h2
        simp only [List.mem_singleton] at h2
        subst h2
        exact ⟨.transport, rfl⟩⟩
  · exact (get_first_successful_child_wins [memChild] [0] [7]).2.1 (by
      intro c hc
      simp only [List.mem_singleton] at hc
      subst hc
      exact ⟨.notFound, rfl⟩)

/-- C3: coordinator `ListFiles` over two children holding digest sets A and
B returns exactly the union — a duplicate-free list whose members are
precisely the digests held by some child. -/
theorem listfiles_union (c0 c1 : Child) (h0 : c0.failing = false)
    (h1 : c1.failing = false) :
    (coordListFiles [c0, c1]).Nodup ∧
    ∀ d, d ∈ coordListFiles [c0, c1] ↔
      d ∈ childFileDigests c0 ∨ d ∈ childFileDigests c1 := by
  unfold coordListFiles coordListWith
  refine ⟨List.nodup_dedup _, fun d => ?_⟩
  rw [List.mem_dedup]
  simp [childListFiles, h0, h1]

/-- C3 witness: the union of `{1, 2}` and `{2, 3}` held by two in-memory
children, with the shared digest collapsed. -/
theorem listfiles_union_witness :
    (coordListFiles [memChildWith [([1], [9]), ([2], [9])] [],
      memChildWith [([2], [9]), ([3], [9])] []]).Nodup ∧
    ([2] ∈ coordListFiles [memChildWith [([1], [9]), ([2], [9])] [],
        memChildWith [([2], [9]), ([3], [9])] []] ↔
      [2] ∈ childFileDigests (memChildWith [([1], [9]), ([2], [9])] []) ∨
      [2] ∈ childFileDigests (memChildWith [([2], [9]), ([3], [9])] [])) :=
  ⟨(listfiles_union (memChildWith [([1], [9]), ([2], [9])] [])
      (memChildWith [([2], [9]), ([3], [9])] []) rfl rfl).1,
   (listfiles_union (memChildWith [([1], [9]), ([2], [9])] [])
      (memChildWith [([2], [9]), ([3], [9])] []) rfl rfl).2 [2]⟩

/-- C5: when a single Put fans out successfully to both of two writable
children whose lists agreed beforehand, the digest is in each child's list
(and in their union), and the two children's file and chunk lists are equal
set-for-set. The fan-out is modelled synchronously, so the state reached
after the spec's bounded convergence delay is the state at return. -/
theorem convergence_after_fanout (c0 c1 : Child) (d : Digest) (x : Content)
    (hw0 : c0.write = true) (hw1 : c1.write = true)
    (hf0 : c0.failing = false) (hf1 : c1.failing = false)
    (hfiles : ∀ e, e ∈ childFileDigests c0 ↔ e ∈ childFileDigests c1)
    (hchunks : ∀ e, e ∈ childChunkDigests c0 ↔ e ∈ childChunkDigests c1) :
    ∃ c02 c12,
      childPutFile c0 d x = .ok c02 ∧ childPutFile c1 d x = .ok c12 ∧
      (coordPutFile [c0, c1] d x).1 = [c02, c12] ∧
      d ∈ childFileDigests c02 ∧ d ∈ childFileDigests c12 ∧
      d ∈ coordListFiles [c02, c12] ∧
      (∀ e, e ∈ childFileDigests c02 ↔ e ∈ childFileDigests c12) ∧
      (∀ e, e ∈ childChunkDigests c02 ↔ e ∈ childChunkDigests c12) := by
  refine ⟨{ c0 with files := astoreInsert c0.files d x },
    { c1 with files := astoreInsert c1.files d x },
    by simp [childPutFile, hf0], by simp [childPutFile, hf1], ?_, ?_, ?_, ?_,
    ?_, ?_⟩
  · simp [coordPutFile, coordPutWith, coordPutSlots, hw0, hw1, childPutFile,
      hf0, hf1]
  · exact (astoreKeys_insert_mem _ _ _ _).mpr (Or.inl rfl)
  · exact (astoreKeys_insert_mem _ _ _ _).mpr (Or.inl rfl)
  · unfold coordListFiles coordListWith
    rw [List.mem_dedup]
    simp only [childListFiles, List.flatMap_cons, List.flatMap_nil]
    have hf02 : ({ c0 with files := astoreInsert c0.files d x } : Child).failing
        = false := hf0
    rw [if_neg (by rw [hf02]; exact Bool.false_ne_true)]
    simp only [List.mem_append]
    exact Or.inl ((astoreKeys_insert_mem _ _ _ _).mpr (Or.inl rfl))
  · intro e
    show e ∈ astoreKeys (astoreInsert c0.files d x) ↔
      e ∈ astoreKeys (astoreInsert c1.files d x)
    rw [astoreKeys_insert_mem, astoreKeys_insert_mem]
    exact or_congr Iff.rfl (hfiles e)
  · exact hchunks

/-- C5 witness: the convergence conclusion at two fresh in-memory children
and the put of digest `[1]` with payload `[2]`. -/
theorem convergence_after_fanout_witness :
    ∃ c02 c12,
      childPutFile memChild [1] [2] = .ok c02 ∧
      childPutFile memChild [1] [2] = .ok c12 ∧
      (coordPutFile [memChild, memChild] [1] [2]).1 = [c02, c12] ∧
      [1] ∈ childFileDigests c02 ∧ [1] ∈ childFileDigests c12 ∧
      [1] ∈ coordListFiles [c02, c12] ∧
      (∀ e, e ∈ childFileDigests c02 ↔ e ∈ childFileDigests c12) ∧
      (∀ e, e ∈ childChunkDigests c02 ↔ e ∈ childChunkDigests c12) :=
  convergence_after_fanout memChild memChild [1] [2] rfl rfl rfl rfl
    (fun _ => Iff.rfl) (fun _ => Iff.rfl)

/-- C9: the Google backend's `GetFile` is definitionally `GetChunk` with a
nil hint, and the chunk lookup query consulted on that read path never
inspects the `shadeType` namespace tag written by `PutFile`/`PutChunk`. -/
theorem google_GetFile_eq_GetChunk_nil :
    (∀ s r d, google.GetFile s r d = google.GetChunk s r d none) ∧
    (∀ cfg d f st, google.chunkQueryMatches cfg d f =
      google.chunkQueryMatches cfg d ⟨f.id, f.name, st, f.parent, f.content⟩) :=
  ⟨fun _ _ _ => rfl, fun _ _ _ _ => rfl⟩

/-- C6 at the failing input: against the Google backend a second
`PutFile(sha256("x"), "x")` is not a no-op — it stores a duplicate remote
entry under the same name, after which reading that digest (which
round-tripped fine after the first put) fails with the non-unique-result
error. -/
theorem google_putfile_not_idempotent :
    google.GetFile google.emptyDrive googleRemote1 digestX = .ok (strBytes "x") ∧
    googleRemote2.files.length = 2 ∧
    (googleRemote2.files.filter
      (fun f => f.name == hexEncode digestX)).length = 2 ∧
    googleRemote2 ≠ googleRemote1 ∧
    google.GetFile google.emptyDrive googleRemote2 digestX = .error .ambiguous := by
  refine ⟨rfl, rfl, rfl, by decide, rfl⟩

/-- C7 counterexample: a Google-backend `GetChunk`/`GetFile` returns a
successfully downloaded payload whose SHA-256 is not the requested digest —
no corruption error is raised. -/
theorem google_read_returns_mismatched_payload :
    google.GetChunk google.emptyDrive mismatchedRemote digestX none
      = .ok (strBytes "y") ∧
    google.GetFile google.emptyDrive mismatchedRemote digestX
      = .ok (strBytes "y") ∧
    sha256 (strBytes "y") ≠ digestX := by
  refine ⟨rfl, rfl, by decide⟩

/-- C7 amended: the Google backend performs no hash verification on read —
`GetChunk`/`GetFile` return the downloaded bytes exactly as stored, whatever
their content, so a digest mismatch passes through silently. -/
theorem google_no_read_verification (s : google.Drive) (r : google.Remote)
    (d : Digest) (fid : Nat) (g : google.RFile)
    (hcache : astoreLookup s.files d = some fid)
    (hfind : r.files.find? (fun f => f.id == fid) = some g) :
    google.GetChunk s r d none = .ok g.content ∧
    google.GetFile s r d = .ok g.content := by
  have h : google.GetChunk s r d none = .ok g.content := by
    unfold google.GetChunk google.download
    rw [hcache]
    dsimp only
    rw [hfind]
  exact ⟨h, h⟩

/-- C7 amended witness: the cached digest `[3]` downloads file ID 0 and
returns its stored bytes `[9, 9]` unchecked. -/
theorem google_no_read_verification_witness :
    google.GetChunk cachedDrive storedRemote [3] none = .ok [9, 9] ∧
    google.GetFile cachedDrive storedRemote [3] = .ok [9, 9] :=
  google_no_read_verification cachedDrive storedRemote [3] 0
    ⟨0, hexEncode [3], "chunk", "appDataFolder", [9, 9]⟩ rfl rfl

/-- C10: the Google backend's `PutChunk` (and `PutFile`) never writes the
digest→fileID cache; only `ListFiles` inserts into it, and only entries
matched by the `shadeType=file` query whose names hex-decode; a `PutChunk`
of an uncached digest uploads, and doing it twice uploads twice; a
`PutChunk` of a cached digest succeeds while leaving the service
untouched. -/
theorem google_putchunk_cache_discipline (s : google.Drive)
    (r : google.Remote) (d : Digest) (c : Content) :
    ((google.PutChunk s r d c).1 = s) ∧
    ((google.PutFile s r d c).1 = s) ∧
    (∀ k, k ∈ astoreKeys (google.ListFiles s r).1.files ↔
      k ∈ astoreKeys s.files ∨
      ∃ f ∈ r.files.filter (google.fileQueryMatches s.config),
        hexDecode f.name = some k) ∧
    (astoreLookup s.files d = none →
      (google.PutChunk s r d c).2 =
        google.createFile r (hexEncode d) "chunk"
          (google.chunkParentOf s.config) c ∧
      (google.PutChunk (google.PutChunk s r d c).1
          (google.PutChunk s r d c).2 d c).2 =
        google.createFile
          (google.createFile r (hexEncode d) "chunk"
            (google.chunkParentOf s.config) c)
          (hexEncode d) "chunk" (google.chunkParentOf s.config) c) ∧
    (∀ fid, astoreLookup s.files d = some fid →
      google.PutChunk s r d c = (s, r)) := by
  refine ⟨?_, rfl, ?_, ?_, ?_⟩
  · cases h : astoreLookup s.files d <;> simp [google.PutChunk, h]
  · intro k
    exact listFiles_cache_foldl_mem _ _ _
  · intro h
    constructor <;> simp [google.PutChunk, h]
  · intro fid h
    simp [google.PutChunk, h]

/-- C10 witness: an uncached digest uploads (fresh client, empty service),
and a cached digest (`[3]` on the cached client) is a service no-op. -/
theorem google_putchunk_cache_discipline_witness :
    (google.PutChunk google.emptyDrive google.emptyRemote [5] [7]).1
      = google.emptyDrive ∧
    (google.PutChunk google.emptyDrive google.emptyRemote [5] [7]).2 =
      google.createFile google.emptyRemote (hexEncode [5]) "chunk"
        (google.chunkParentOf google.emptyDrive.config) [7] ∧
    google.PutChunk cachedDrive storedRemote [3] [7]
      = (cachedDrive, storedRemote) :=
  ⟨(google_putchunk_cache_discipline google.emptyDrive google.emptyRemote
      [5] [7]).1,
   ((google_putchunk_cache_discipline google.emptyDrive google.emptyRemote
      [5] [7]).2.2.2.1 rfl).1,
   (google_putchunk_cache_discipline cachedDrive storedRemote
      [3] [7]).2.2.2.2 0 rfl⟩

end Shade
